import Mathlib

/-!
Verification of the rc-decision-engine repository (road-condition decision
engine for brine-spray systems).

The embedding works over exact rationals `ℚ` in place of Python floats.
Randomness is made explicit: the seeded NumPy generator used by the Monte
Carlo engine is modelled as a stream `g : ℕ → ℚ` of standard-normal draws
(one stream per seed), and the *unseeded* ambient randomness used by the
spray-trajectory engine's droplet sampling is a separate stream `ω`.
Python exceptions are modelled with `Option` (`none` = the call raised).
`float` square root is modelled by a computable rational surrogate
`ratSqrt` whose only property used by any claim is non-negativity.
-/

namespace RC

/-- Rational truncation toward zero, the semantics of Python `int(x)` on
a real value. -/
def qtrunc (q : ℚ) : ℤ := if 0 ≤ q then ⌊q⌋ else -⌊(-q : ℚ)⌋

/-- Model of `numpy.clip(x, lo, hi)`. -/
def clip (x lo hi : ℚ) : ℚ := min (max x lo) hi

/-- Model of Python float modulo `x % 360`, used for wind-direction wrap. -/
def wrap360 (x : ℚ) : ℚ := x - 360 * ⌊x / 360⌋

/-- Computable rational surrogate for the square root used by `np.std`:
the integer square root of `num·den` over `den`.  Agrees with the exact
root on perfect squares; every claim below uses only its non-negativity. -/
def ratSqrt (q : ℚ) : ℚ := ((Nat.sqrt (q.num.toNat * q.den) : ℤ) : ℚ) / (q.den : ℚ)

theorem ratSqrt_nonneg (q : ℚ) : 0 ≤ ratSqrt q := by
  unfold ratSqrt
  apply div_nonneg
  · exact_mod_cast Int.ofNat_nonneg _
  · exact_mod_cast Nat.zero_le _

theorem wrap360_mem (x : ℚ) : 0 ≤ wrap360 x ∧ wrap360 x < 360 := by
  unfold wrap360
  constructor
  · have h := Int.floor_le (x / 360)
    have h2 : (360 : ℚ) * ⌊x / 360⌋ ≤ 360 * (x / 360) := by
      apply mul_le_mul_of_nonneg_left h; norm_num
    have h3 : (360 : ℚ) * (x / 360) = x := by ring
    linarith
  · have h := Int.lt_floor_add_one (x / 360)
    have h2 : 360 * (x / 360) < 360 * ((⌊x / 360⌋ : ℚ) + 1) := by
      apply mul_lt_mul_of_pos_left h; norm_num
    have h3 : (360 : ℚ) * (x / 360) = x := by ring
    linarith

/-! ## Domain model: `engine/domain/models.py` and `engine/domain/constants.py` -/

/-- `EnvironmentCondition` (the fields used by the decision engine). -/
structure EnvironmentCondition where
  temperature : ℚ
  humidity : ℚ
  wind_speed : ℚ
  wind_direction : ℚ
  precipitation : ℚ
  solar_radiation : ℚ
  road_surface_temp : ℚ
  deriving DecidableEq, Repr

/-- `FAIL_PROBABILITY_THRESHOLD = 0.20`. -/
def FAIL_PROBABILITY_THRESHOLD : ℚ := 1/5

/-- `FAIL_SAFETY_FACTOR_THRESHOLD = 1.0`. -/
def FAIL_SAFETY_FACTOR_THRESHOLD : ℚ := 1

/-- `PASS_SAFETY_FACTOR_TARGET = 1.5`. -/
def PASS_SAFETY_FACTOR_TARGET : ℚ := 3/2

/-- `KDS_MIN_BRINE_COVERAGE = 0.85`. -/
def KDS_MIN_BRINE_COVERAGE : ℚ := 17/20

/-! ## Monte Carlo engine: `engine/decision/monte_carlo.py` -/

/-- One perturbed environment, sample number `i`, drawn with the seeded
generator stream `g` (six normal draws per sample, consumed in program
order).  `rng.normal (mu, s)` is `mu + s * d` for the next draw `d`.
Mirrors the body of `MonteCarloEngine._sample_environment`. -/
def sampleEnvAt (g : ℕ → ℚ) (base : EnvironmentCondition) (i : ℕ) :
    EnvironmentCondition where
  temperature := base.temperature + 2 * g (6*i)
  humidity := clip (base.humidity + 10 * g (6*i+1)) 0 100
  wind_speed := max 0 (base.wind_speed + 3/2 * g (6*i+2))
  wind_direction := wrap360 (base.wind_direction + 15 * g (6*i+3))
  precipitation := max 0 (base.precipitation + 1/2 * g (6*i+4))
  solar_radiation := max 0 (base.solar_radiation + 50 * g (6*i+5))
  road_surface_temp := base.road_surface_temp

/-- `MonteCarloEngine._sample_environment`: the list of `n` sampled
environments. -/
def sampleEnvironment (g : ℕ → ℚ) (base : EnvironmentCondition) (n : ℕ) :
    List EnvironmentCondition :=
  (List.range n).map (sampleEnvAt g base)

/-- A physics engine, seen from the Monte Carlo loop: `predict` composed
with `compute_safety_factor` on one sampled environment.  The first
argument is the ambient (unseeded) randomness stream; `none` models a
raised exception in either call. -/
def SampleSF : Type := (ℕ → ℚ) → EnvironmentCondition → Option ℚ

/-- Arithmetic mean, `np.mean`. -/
def listMean (l : List ℚ) : ℚ := l.sum / l.length

/-- Population variance, the quantity under the root in `np.std`. -/
def listVar (l : List ℚ) : ℚ := ((l.map (fun x => (x - listMean l)^2)).sum) / l.length

/-- The dictionary returned by `MonteCarloEngine.run` (the fields the
claims are about). -/
structure MCResult where
  safety_factors : List ℚ
  mean_sf : ℚ
  std_sf : ℚ
  failure_probability : ℚ
  ucl_95 : ℚ
  n_samples : ℕ
  deriving DecidableEq, Repr

/-- `MonteCarloEngine.run`: sample `n` environments with the seeded
stream `g`, evaluate the engine on each (an exception records `0.0`),
and aggregate.  `pf` is `np.mean(sf_array < 1.0)` and the UCL is
`mean + 1.96 * std`. -/
def mcRun (engine : SampleSF) (om g : ℕ → ℚ) (base : EnvironmentCondition)
    (n : ℕ) : MCResult :=
  let envs := sampleEnvironment g base n
  let sfs := envs.map (fun e => (engine om e).getD 0)
  let m := listMean sfs
  let s := ratSqrt (listVar sfs)
  { safety_factors := sfs
    mean_sf := m
    std_sf := s
    failure_probability := ((sfs.countP (fun x => decide (x < 1))) : ℚ) / n
    ucl_95 := m + 196/100 * s
    n_samples := n }

/-! ## Spray-trajectory engine: `engine/physics/navier_stokes.py`

The droplet-trajectory integration produces a list of landing points; the
claims below are about what `predict` does *with* those points, so the
landing-point list is the abstraction boundary: it is a parameter
(its value depends on the unseeded droplet-diameter noise `ω`). -/

/-- Python `max` over a nonempty collection, as a fold from a first
element. -/
def maxFold (a : ℚ) (l : List ℚ) : ℚ := l.foldl max a

/-- Python `min` over a nonempty collection, as a fold from a first
element. -/
def minFold (a : ℚ) (l : List ℚ) : ℚ := l.foldl min a

theorem le_maxFold (a : ℚ) (l : List ℚ) : a ≤ maxFold a l := by
  induction l generalizing a with
  | nil => exact le_refl a
  | cons x t ih =>
      calc a ≤ max a x := le_max_left a x
      _ ≤ maxFold (max a x) t := ih (max a x)

theorem minFold_le (a : ℚ) (l : List ℚ) : minFold a l ≤ a := by
  induction l generalizing a with
  | nil => exact le_refl a
  | cons x t ih =>
      calc minFold (min a x) t ≤ min a x := ih (min a x)
      _ ≤ a := min_le_left a x

/-- The bounding-box coverage-area estimate of `NavierStokesEngine.predict`:
`(max xs - min xs) * (max ys - min ys) * 0.7` over the landing points,
`0.0` when there are none. -/
def coverageArea (pts : List (ℚ × ℚ)) : ℚ :=
  match pts with
  | [] => 0
  | p :: rest =>
      let xs := rest.map Prod.fst
      let ys := rest.map Prod.snd
      (maxFold p.1 xs - minFold p.1 xs) * (maxFold p.2 ys - minFold p.2 ys) * (7/10)

theorem coverageArea_nonneg (pts : List (ℚ × ℚ)) : 0 ≤ coverageArea pts := by
  match pts with
  | [] => exact le_refl 0
  | p :: rest =>
      have hx : minFold p.1 (rest.map Prod.fst) ≤ maxFold p.1 (rest.map Prod.fst) :=
        le_trans (minFold_le _ _) (le_maxFold _ _)
      have hy : minFold p.2 (rest.map Prod.snd) ≤ maxFold p.2 (rest.map Prod.snd) :=
        le_trans (minFold_le _ _) (le_maxFold _ _)
      show (0:ℚ) ≤ _ * _ * (7/10)
      have := mul_nonneg (sub_nonneg.mpr hx) (sub_nonneg.mpr hy)
      linarith

/-- The coverage-ratio computation at the end of
`NavierStokesEngine.predict`: divide the bounding-box area by the total
road area and clip at 1 (0 when there is no road area), then, when a
`coverage_correction` is present in `params`, scale by
`(1 + correction)` and reclip to `[0, 1]`. -/
def nsCoverageRatio (pts : List (ℚ × ℚ)) (total_road_area : ℚ)
    (coverage_correction : Option ℚ) : ℚ :=
  let r0 := if 0 < total_road_area then min (coverageArea pts / total_road_area) 1 else 0
  match coverage_correction with
  | none => r0
  | some c => min (max (r0 * (1 + c)) 0) 1

/-- `NavierStokesEngine.compute_safety_factor`:
`SF = coverage_ratio / KDS_MIN_BRINE_COVERAGE`.  The code's
`required <= 0 → inf` guard is dead, since the required coverage is the
constant `0.85 > 0`. -/
def nsComputeSafetyFactor (coverage_ratio : ℚ) : ℚ :=
  coverage_ratio / KDS_MIN_BRINE_COVERAGE

theorem nsCoverageRatio_mem (pts : List (ℚ × ℚ)) (road : ℚ)
    (corr : Option ℚ) :
    0 ≤ nsCoverageRatio pts road corr ∧ nsCoverageRatio pts road corr ≤ 1 := by
  unfold nsCoverageRatio
  have h0 : (0:ℚ) ≤ (if 0 < road then min (coverageArea pts / road) 1 else 0) := by
    split
    · exact le_min (div_nonneg (coverageArea_nonneg pts) (by linarith)) (by norm_num)
    · exact le_refl 0
  have h1 : (if 0 < road then min (coverageArea pts / road) 1 else 0) ≤ 1 := by
    split
    · exact min_le_right _ _
    · norm_num
  match corr with
  | none => exact ⟨h0, h1⟩
  | some c =>
      refine ⟨le_min (le_max_right _ _) (by norm_num), min_le_right _ _⟩

/-! ## Grid-coverage engine: `engine/physics/spray_coverage.py` -/

/-- `splash_cells = max(int(0.05 / grid_resolution), 1)`. -/
def splashCells (res : ℚ) : ℤ := max (qtrunc (1/20 / res)) 1

/-- The grid cell a landing point is binned into:
`(int((x + L/2)/res), int((y + W/2)/res))`. -/
def cellOf (res L W : ℚ) (p : ℚ × ℚ) : ℤ × ℤ :=
  (qtrunc ((p.1 + L/2) / res), qtrunc ((p.2 + W/2) / res))

/-- The in-bounds splash neighbourhood a single landing point marks. -/
def splashBox (res L W : ℚ) (nx ny : ℕ) (p : ℚ × ℚ) : Finset (ℤ × ℤ) :=
  let c := cellOf res L W p
  let s := splashCells res
  (Finset.Icc (c.1 - s) (c.1 + s) ×ˢ Finset.Icc (c.2 - s) (c.2 + s)).filter
    (fun q => 0 ≤ q.1 ∧ q.1 < (nx:ℤ) ∧ 0 ≤ q.2 ∧ q.2 < (ny:ℤ))

/-- The set of grid cells marked `True` after the marking loop of
`SprayCoverageEngine.predict`. -/
def markedCells (res L W : ℚ) (nx ny : ℕ) (pts : List (ℚ × ℚ)) :
    Finset (ℤ × ℤ) :=
  pts.foldl (fun acc p => acc ∪ splashBox res L W nx ny p) ∅

/-- Grid dimensions `nx = max(int(L/res), 1)`, `ny = max(int(W/res), 1)`. -/
def gridDims (res L W : ℚ) : ℕ × ℕ :=
  (max (qtrunc (L / res)).toNat 1, max (qtrunc (W / res)).toNat 1)

/-- `grid_coverage = covered_cells / total_cells` from
`SprayCoverageEngine.predict` (0 when the grid is empty; the grid always
has at least one cell, so that guard is dead). -/
def gridCoverage (res L W : ℚ) (pts : List (ℚ × ℚ)) : ℚ :=
  let nx := (gridDims res L W).1
  let ny := (gridDims res L W).2
  if 0 < nx * ny then
    ((markedCells res L W nx ny pts).card : ℚ) / ((nx * ny : ℕ) : ℚ)
  else 0

/-- The full cell box of the grid. -/
def cellBox (nx ny : ℕ) : Finset (ℤ × ℤ) :=
  Finset.Icc 0 ((nx:ℤ) - 1) ×ˢ Finset.Icc 0 ((ny:ℤ) - 1)

theorem splashBox_subset (res L W : ℚ) (nx ny : ℕ) (p : ℚ × ℚ) :
    splashBox res L W nx ny p ⊆ cellBox nx ny := by
  intro q hq
  unfold splashBox at hq
  have hmem := Finset.mem_filter.mp hq
  obtain ⟨-, h1, h2, h3, h4⟩ := hmem
  unfold cellBox
  rw [Finset.mem_product]
  constructor
  · rw [Finset.mem_Icc]; omega
  · rw [Finset.mem_Icc]; omega

theorem markedCells_subset (res L W : ℚ) (nx ny : ℕ) (pts : List (ℚ × ℚ)) :
    markedCells res L W nx ny pts ⊆ cellBox nx ny := by
  unfold markedCells
  have key : ∀ (l : List (ℚ × ℚ)) (acc : Finset (ℤ × ℤ)),
      acc ⊆ cellBox nx ny →
      l.foldl (fun acc p => acc ∪ splashBox res L W nx ny p) acc ⊆ cellBox nx ny := by
    intro l
    induction l with
    | nil => intro acc h; exact h
    | cons p t ih =>
        intro acc h
        exact ih _ (Finset.union_subset h (splashBox_subset res L W nx ny p))
  exact key pts ∅ (Finset.empty_subset _)

theorem cellBox_card (nx ny : ℕ) : (cellBox nx ny).card = nx * ny := by
  unfold cellBox
  rw [Finset.card_product]
  rw [Int.card_Icc, Int.card_Icc]
  simp

theorem gridCoverage_mem (res L W : ℚ) (pts : List (ℚ × ℚ)) :
    0 ≤ gridCoverage res L W pts ∧ gridCoverage res L W pts ≤ 1 := by
  unfold gridCoverage
  dsimp only
  set nx := (gridDims res L W).1 with hnx
  set ny := (gridDims res L W).2 with hny
  split
  case isTrue hpos =>
    have hcard : (markedCells res L W nx ny pts).card ≤ nx * ny := by
      calc (markedCells res L W nx ny pts).card
          ≤ (cellBox nx ny).card :=
            Finset.card_le_card (markedCells_subset res L W nx ny pts)
      _ = nx * ny := cellBox_card nx ny
    constructor
    · apply div_nonneg
      · exact_mod_cast Nat.zero_le _
      · exact_mod_cast Nat.zero_le _
    · rw [div_le_one (by exact_mod_cast hpos)]
      exact_mod_cast hcard
  case isFalse => norm_num

/-! ## The Judge: `engine/decision/judge.py` -/

/-- Verdicts of `engine/domain/enums.py`. -/
inductive Verdict where
  | PASS
  | FAIL
  | WARNING
  deriving DecidableEq, Repr

/-- The classification chain in the body of `Judge.decide`, as a function
of the Monte Carlo statistics and the safety-factor target. -/
def classify (pf mean_sf ucl_95 safety_factor_target : ℚ) : Verdict :=
  if pf ≥ FAIL_PROBABILITY_THRESHOLD ∨ mean_sf < FAIL_SAFETY_FACTOR_THRESHOLD then
    Verdict.FAIL
  else if mean_sf < safety_factor_target ∨ ucl_95 > safety_factor_target * (3/2) then
    Verdict.WARNING
  else
    Verdict.PASS

/-- `Judge.decide`: run Monte Carlo, then classify.  Returns the verdict
(the other `DecisionResult` fields are copies of the inputs above). -/
def judgeDecide (engine : SampleSF) (om g : ℕ → ℚ)
    (base : EnvironmentCondition) (n : ℕ) (safety_factor_target : ℚ) : Verdict :=
  let r := mcRun engine om g base n
  classify r.failure_probability r.mean_sf r.ucl_95 safety_factor_target

/-! ## Rule-based judgment engine: `src/judgment/rule_engine.py` -/

namespace Rule

/-- `Severity` of a rule observation. -/
inductive Severity where
  | critical
  | warning
  | info
  deriving DecidableEq, Repr

/-- `FailureObservation` (the fields `_make_verdict` reads). -/
structure FailureObservation where
  rule_id : String
  category : String
  severity : Severity
  description : String
  evidence : String
  recommendation : String := ""
  deriving DecidableEq, Repr

/-- `Verdict` of the rule engine (distinct from the Monte Carlo judge's). -/
inductive RVerdict where
  | PASS
  | FAIL
  | CONDITIONAL_PASS
  deriving DecidableEq, Repr

/-- `JudgmentResult` (the fields the claims are about; `summary` and
`limitations` are fixed strings per branch and carry no logic). -/
structure JudgmentResult where
  verdict : RVerdict
  confidence : ℚ
  failures : List FailureObservation
  conditions : List String
  deriving DecidableEq, Repr

/-- `_make_verdict`: FAIL at confidence 0.9 when any critical observation
exists, else CONDITIONAL_PASS at 0.7 when any warning exists — with the
conditions list built from the warnings' truthy (non-empty)
recommendations — else PASS at 0.8. -/
def makeVerdict (failures : List FailureObservation) : JudgmentResult :=
  let critical := failures.filter (fun f => decide (f.severity = Severity.critical))
  let warnings := failures.filter (fun f => decide (f.severity = Severity.warning))
  if critical ≠ [] then
    { verdict := RVerdict.FAIL, confidence := 9/10, failures := failures,
      conditions := [] }
  else if warnings ≠ [] then
    { verdict := RVerdict.CONDITIONAL_PASS, confidence := 7/10, failures := failures,
      conditions := (warnings.filter (fun w => decide (w.recommendation ≠ ""))).map
        (fun w => w.recommendation) }
  else
    { verdict := RVerdict.PASS, confidence := 8/10, failures := failures,
      conditions := [] }

end Rule

/-! ## Calibrator: `engine/calibration/calibrator.py`

Python dicts are modelled as association lists in insertion order; dict
keys are unique, so looking a key up is `List.find?` on the key. -/

/-- Dictionary lookup, `sensor_data[param_name]`. -/
def dictFind (d : List (String × ℚ)) (k : String) : Option ℚ :=
  (d.find? (fun p => p.1 == k)).map Prod.snd

/-- `CalibrationResult`. -/
structure CalibrationResult where
  drift_percentage : ℚ
  corrections_applied : List (String × ℚ)
  new_physics_params : List (String × ℚ)
  sensor_readings_used : ℕ
  status : String
  deriving DecidableEq, Repr

/-- For one `(param_name, current_value)` item of `current_params`:
`some (correction, new_value)` when the parameter is present in
`sensor_data` and the current value is non-zero, `none` when the loop
body skips it. -/
def calibrateStep (lr : ℚ) (sensor : List (String × ℚ)) (p : String × ℚ) :
    Option (ℚ × ℚ) :=
  match dictFind sensor p.1 with
  | none => none
  | some sv =>
      if p.2 ≠ 0 then
        let error := (sv - p.2) / |p.2|
        let correction := lr * error
        some (correction, p.2 * (1 + correction))
      else none

/-- `Calibrator.calibrate` (the default learning rate is `0.1`). -/
def calibrate (lr : ℚ) (current_params sensor_data : List (String × ℚ)) :
    CalibrationResult :=
  let corrections := current_params.filterMap
    (fun p => (calibrateStep lr sensor_data p).map (fun q => (p.1, q.1)))
  let new_params := current_params.map
    (fun p => match calibrateStep lr sensor_data p with
      | some q => (p.1, q.2)
      | none => p)
  let readings_used := corrections.length
  let drift_pct : ℚ :=
    if corrections ≠ [] then
      ((corrections.map (fun c => |c.2|)).sum / corrections.length) * 100
    else 0
  { drift_percentage := drift_pct
    corrections_applied := corrections
    new_physics_params := new_params
    sensor_readings_used := readings_used
    status := if readings_used > 0 then "calibrated" else "insufficient_data" }

/-- The default learning rate of `Calibrator.__init__`. -/
def defaultLearningRate : ℚ := 1/10

/-! ## Drift detector: `engine/calibration/drift_detector.py` -/

/-- `DRIFT_THRESHOLD_PCT = 5.0`. -/
def DRIFT_THRESHOLD_PCT : ℚ := 5

/-- `DRIFT_SUSTAINED_MINUTES = 10`. -/
def DRIFT_SUSTAINED_MINUTES : ℕ := 10

/-- `DriftDetector.should_recalibrate`.  A history entry is its
`drift_pct` value.  `history[-m:]` is the last `m` entries, i.e.
`drop (length - m)`; this agrees with the Python slice for every
`m ≥ 1`, the detector's meaningful configurations (the claim below is
stated on that domain). -/
def shouldRecalibrate (threshold : ℚ) (m : ℕ) (history : List ℚ) : Bool :=
  if history.isEmpty then false
  else
    let recent := history.drop (history.length - m)
    if recent.length < m then false
    else recent.all (fun d => decide (threshold < d))

/-! ## Claim theorems -/

/-- A concrete base environment used to instantiate universally
quantified theorems. -/
def envZero : EnvironmentCondition :=
  { temperature := 0, humidity := 0, wind_speed := 0, wind_direction := 0,
    precipitation := 0, solar_radiation := 0, road_surface_temp := 0 }

/-- C1: `Judge.decide` classifies strictly in order as a pure function of
the Monte Carlo statistics: FAIL iff `pf ≥ 0.20` or `mean_sf < 1.0`;
otherwise WARNING iff `mean_sf < target` or `ucl_95 > target * 1.5`;
otherwise PASS.  In particular `pf = 0.20` exactly yields FAIL, and
`mean_sf = 1.0` exactly does not by itself trigger FAIL, the
safety-factor condition being strict. -/
theorem judge_decide_classification :
    (∀ (engine : SampleSF) (om g : ℕ → ℚ) (base : EnvironmentCondition)
      (n : ℕ) (t : ℚ),
      judgeDecide engine om g base n t =
        classify (mcRun engine om g base n).failure_probability
          (mcRun engine om g base n).mean_sf
          (mcRun engine om g base n).ucl_95 t) ∧
    (∀ pf msf ucl t : ℚ,
      (classify pf msf ucl t = Verdict.FAIL ↔ pf ≥ 1/5 ∨ msf < 1) ∧
      (classify pf msf ucl t = Verdict.WARNING ↔
        ¬(pf ≥ 1/5 ∨ msf < 1) ∧ (msf < t ∨ ucl > t * (3/2))) ∧
      (classify pf msf ucl t = Verdict.PASS ↔
        ¬(pf ≥ 1/5 ∨ msf < 1) ∧ ¬(msf < t ∨ ucl > t * (3/2)))) ∧
    (∀ msf ucl t : ℚ, classify (1/5) msf ucl t = Verdict.FAIL) ∧
    (∀ pf ucl t : ℚ, pf < 1/5 → classify pf 1 ucl t ≠ Verdict.FAIL) := by
  refine ⟨fun _ _ _ _ _ _ => rfl, ?_, ?_, ?_⟩
  · intro pf msf ucl t
    unfold classify FAIL_PROBABILITY_THRESHOLD FAIL_SAFETY_FACTOR_THRESHOLD
    refine ⟨?_, ?_, ?_⟩ <;> split_ifs <;> simp_all
  · intro msf ucl t
    unfold classify FAIL_PROBABILITY_THRESHOLD FAIL_SAFETY_FACTOR_THRESHOLD
    rw [if_pos (Or.inl (le_refl (1/5)))]
  · intro pf ucl t hpf
    unfold classify FAIL_PROBABILITY_THRESHOLD FAIL_SAFETY_FACTOR_THRESHOLD
    rw [if_neg (by push_neg; exact ⟨by linarith, by norm_num⟩)]
    split_ifs <;> simp

/-- Witness for C1 at `pf = 0`, `mean_sf = 1`. -/
theorem judge_decide_classification_witness :
    classify 0 1 0 0 ≠ Verdict.FAIL :=
  judge_decide_classification.2.2.2 0 0 0 (by norm_num)

/-- C2 counterexample: with landing points `[(0,0), (1,1)]` and road area
`1.4`, the pre-correction ratio is `0.5`; a `coverage_correction` of
`0.2` yields `0.5 * 1.2 = 0.6` in the code, not the additively perturbed
`0.5 + 0.2 = 0.7` the claim states. -/
theorem nsCoverageRatio_correction_not_additive :
    nsCoverageRatio [(0,0),(1,1)] (7/5) (some (1/5)) ≠
      min (max (nsCoverageRatio [(0,0),(1,1)] (7/5) none + 1/5) 0) 1 := by
  have harea : coverageArea [((0:ℚ),(0:ℚ)),(1,1)] = 7/10 := by
    norm_num [coverageArea, maxFold, minFold]
  have h1 : nsCoverageRatio [(0,0),(1,1)] (7/5) none = 1/2 := by
    rw [nsCoverageRatio]
    rw [harea]
    norm_num [min_def]
  have h2 : nsCoverageRatio [(0,0),(1,1)] (7/5) (some (1/5)) = 3/5 := by
    rw [nsCoverageRatio]
    rw [harea]
    norm_num [min_def, max_def]
  rw [h1, h2]
  norm_num [min_def, max_def]

/-- C2 amended: the `coverage_correction` perturbs the coverage ratio
*multiplicatively* — new ratio = ratio × (1 + correction) — and the
result is then reclipped to `[0, 1]`. -/
theorem nsCoverageRatio_correction_multiplicative :
    ∀ (pts : List (ℚ × ℚ)) (road c : ℚ),
      nsCoverageRatio pts road (some c) =
        min (max (nsCoverageRatio pts road none * (1 + c)) 0) 1 ∧
      0 ≤ nsCoverageRatio pts road (some c) ∧
      nsCoverageRatio pts road (some c) ≤ 1 := by
  intro pts road c
  exact ⟨rfl, (nsCoverageRatio_mem pts road (some c)).1,
    (nsCoverageRatio_mem pts road (some c)).2⟩

/-- C6: every sampled environment has humidity in `[0, 100]`,
non-negative wind speed, precipitation and solar radiation,
wind direction in `[0, 360)`, and the base's road-surface temperature
unchanged. -/
theorem sampleEnvironment_invariants :
    ∀ (g : ℕ → ℚ) (base : EnvironmentCondition) (n : ℕ)
      (env : EnvironmentCondition), env ∈ sampleEnvironment g base n →
      0 ≤ env.humidity ∧ env.humidity ≤ 100 ∧
      0 ≤ env.wind_speed ∧ 0 ≤ env.precipitation ∧ 0 ≤ env.solar_radiation ∧
      0 ≤ env.wind_direction ∧ env.wind_direction < 360 ∧
      env.road_surface_temp = base.road_surface_temp := by
  intro g base n env hmem
  unfold sampleEnvironment at hmem
  obtain ⟨i, -, rfl⟩ := List.mem_map.mp hmem
  unfold sampleEnvAt
  refine ⟨?_, ?_, ?_, ?_, ?_, ?_, ?_, rfl⟩
  · exact le_min (le_max_right _ _) (by norm_num)
  · exact min_le_right _ _
  · exact le_max_left _ _
  · exact le_max_left _ _
  · exact le_max_left _ _
  · exact (wrap360_mem _).1
  · exact (wrap360_mem _).2

/-- Witness for C6: the first sample from the zero base environment under
the zero noise stream. -/
theorem sampleEnvironment_invariants_witness :
    0 ≤ (sampleEnvAt (fun _ => 0) envZero 0).humidity ∧
    (sampleEnvAt (fun _ => 0) envZero 0).humidity ≤ 100 ∧
    0 ≤ (sampleEnvAt (fun _ => 0) envZero 0).wind_speed ∧
    0 ≤ (sampleEnvAt (fun _ => 0) envZero 0).precipitation ∧
    0 ≤ (sampleEnvAt (fun _ => 0) envZero 0).solar_radiation ∧
    0 ≤ (sampleEnvAt (fun _ => 0) envZero 0).wind_direction ∧
    (sampleEnvAt (fun _ => 0) envZero 0).wind_direction < 360 ∧
    (sampleEnvAt (fun _ => 0) envZero 0).road_surface_temp =
      envZero.road_surface_temp :=
  sampleEnvironment_invariants (fun _ => 0) envZero 1 _
    (by simp [sampleEnvironment])

/-- C10: `should_recalibrate` is true iff the history holds at least
`sustained_minutes` entries and every one of the most recent
`sustained_minutes` entries strictly exceeds the threshold; in
particular it is false on any shorter history, the empty one included. -/
theorem shouldRecalibrate_iff :
    ∀ (threshold : ℚ) (m : ℕ) (history : List ℚ), 1 ≤ m →
      (shouldRecalibrate threshold m history = true ↔
        m ≤ history.length ∧
          ∀ d ∈ history.drop (history.length - m), threshold < d) ∧
      (history.length < m → shouldRecalibrate threshold m history = false) := by
  intro threshold m history hm
  by_cases h0 : history = []
  · subst h0
    have hfalse : shouldRecalibrate threshold m [] = false := rfl
    constructor
    · rw [hfalse]
      simp only [Bool.false_eq_true, false_iff]
      intro hc
      have hc1 := hc.1
      simp at hc1
      omega
    · intro _
      exact hfalse
  · obtain ⟨x, t, rfl⟩ := List.exists_cons_of_ne_nil h0
    rw [shouldRecalibrate]
    rw [if_neg (by simp : ¬((x :: t).isEmpty = true))]
    have hlen : ((x :: t).drop ((x :: t).length - m)).length =
        (x :: t).length - ((x :: t).length - m) := List.length_drop _ _
    have hne : (x :: t).length ≠ 0 := by simp
    dsimp only
    split_ifs with hrec
    · rw [hlen] at hrec
      constructor
      · simp only [Bool.false_eq_true, false_iff]
        intro hc
        omega
      · intro _
        rfl
    · rw [hlen] at hrec
      have hlong : m ≤ (x :: t).length := by omega
      constructor
      · rw [List.all_eq_true]
        constructor
        · intro h
          exact ⟨hlong, fun d hd => of_decide_eq_true (h d hd)⟩
        · intro h d hd
          exact decide_eq_true (h.2 d hd)
      · intro hc
        omega

/-- Witness for C10 on a one-entry history above the threshold with a
one-minute window. -/
theorem shouldRecalibrate_iff_witness :
    (shouldRecalibrate 5 1 [6] = true ↔
      1 ≤ [(6:ℚ)].length ∧
        ∀ d ∈ [(6:ℚ)].drop ([(6:ℚ)].length - 1), (5:ℚ) < d) ∧
    ([(6:ℚ)].length < 1 → shouldRecalibrate 5 1 [6] = false) :=
  shouldRecalibrate_iff 5 1 [6] (by norm_num)

/-- The safety-factor list of a Monte Carlo run always has one entry per
sample. -/
theorem mcRun_sf_length (engine : SampleSF) (om g : ℕ → ℚ)
    (base : EnvironmentCondition) (n : ℕ) :
    (mcRun engine om g base n).safety_factors.length = n := by
  simp [mcRun, sampleEnvironment]

/-- C3: `MonteCarloEngine.run` returns exactly `n` safety factors, and a
sample on which the physics engine raises is recorded as `0.0` while the
rest of the batch still runs. -/
theorem mcRun_length_and_exception_to_zero :
    ∀ (engine : SampleSF) (om g : ℕ → ℚ) (base : EnvironmentCondition) (n : ℕ),
      (mcRun engine om g base n).safety_factors.length = n ∧
      ∀ i, i < n → engine om (sampleEnvAt g base i) = none →
        (mcRun engine om g base n).safety_factors[i]? = some 0 := by
  intro engine om g base n
  refine ⟨mcRun_sf_length engine om g base n, ?_⟩
  intro i hi hnone
  show ((sampleEnvironment g base n).map (fun e => (engine om e).getD 0))[i]? = some 0
  unfold sampleEnvironment
  rw [List.getElem?_map, List.getElem?_map, List.getElem?_range hi]
  simp [hnone]

/-- Witness for C3: one sample, an engine that always raises. -/
theorem mcRun_length_and_exception_to_zero_witness :
    (mcRun (fun _ _ => none) (fun _ => 0) (fun _ => 0) envZero 1).safety_factors.length = 1 ∧
    (mcRun (fun _ _ => none) (fun _ => 0) (fun _ => 0) envZero 1).safety_factors[0]? = some 0 :=
  ⟨(mcRun_length_and_exception_to_zero (fun _ _ => none) (fun _ => 0) (fun _ => 0) envZero 1).1,
   (mcRun_length_and_exception_to_zero (fun _ _ => none) (fun _ => 0) (fun _ => 0) envZero 1).2
     0 (by norm_num) rfl⟩

/-- C7: the returned failure probability is the fraction of samples with
safety factor strictly below `1.0`, hence lies in `[0, 1]`, and
`ucl_95 = mean_sf + 1.96 * std_sf ≥ mean_sf` since the standard
deviation is non-negative. -/
theorem mcRun_failure_probability_and_ucl :
    ∀ (engine : SampleSF) (om g : ℕ → ℚ) (base : EnvironmentCondition) (n : ℕ),
      0 < n →
      (mcRun engine om g base n).failure_probability =
        (((mcRun engine om g base n).safety_factors.countP
          (fun x => decide (x < 1)) : ℕ) : ℚ) / n ∧
      0 ≤ (mcRun engine om g base n).failure_probability ∧
      (mcRun engine om g base n).failure_probability ≤ 1 ∧
      (mcRun engine om g base n).ucl_95 =
        (mcRun engine om g base n).mean_sf +
          196/100 * (mcRun engine om g base n).std_sf ∧
      (mcRun engine om g base n).mean_sf ≤ (mcRun engine om g base n).ucl_95 := by
  intro engine om g base n hn
  have hpf : (mcRun engine om g base n).failure_probability =
      (((mcRun engine om g base n).safety_factors.countP
        (fun x => decide (x < 1)) : ℕ) : ℚ) / n := rfl
  have hstd : 0 ≤ (mcRun engine om g base n).std_sf := ratSqrt_nonneg _
  have hucl : (mcRun engine om g base n).ucl_95 =
      (mcRun engine om g base n).mean_sf +
        196/100 * (mcRun engine om g base n).std_sf := rfl
  refine ⟨hpf, ?_, ?_, hucl, ?_⟩
  · rw [hpf]
    apply div_nonneg
    · exact_mod_cast Nat.zero_le _
    · exact_mod_cast Nat.zero_le _
  · rw [hpf]
    rw [div_le_one (by exact_mod_cast hn)]
    have h := List.countP_le_length (fun x => decide (x < 1))
      (l := (mcRun engine om g base n).safety_factors)
    rw [mcRun_sf_length] at h
    exact_mod_cast h
  · rw [hucl]
    nlinarith

/-- Witness for C7 at one sample of a constant engine. -/
theorem mcRun_failure_probability_and_ucl_witness :
    (mcRun (fun _ _ => some 2) (fun _ => 0) (fun _ => 0) envZero 1).failure_probability =
      (((mcRun (fun _ _ => some 2) (fun _ => 0) (fun _ => 0) envZero 1).safety_factors.countP
        (fun x => decide (x < 1)) : ℕ) : ℚ) / 1 ∧
    0 ≤ (mcRun (fun _ _ => some 2) (fun _ => 0) (fun _ => 0) envZero 1).failure_probability ∧
    (mcRun (fun _ _ => some 2) (fun _ => 0) (fun _ => 0) envZero 1).failure_probability ≤ 1 ∧
    (mcRun (fun _ _ => some 2) (fun _ => 0) (fun _ => 0) envZero 1).ucl_95 =
      (mcRun (fun _ _ => some 2) (fun _ => 0) (fun _ => 0) envZero 1).mean_sf +
        196/100 * (mcRun (fun _ _ => some 2) (fun _ => 0) (fun _ => 0) envZero 1).std_sf ∧
    (mcRun (fun _ _ => some 2) (fun _ => 0) (fun _ => 0) envZero 1).mean_sf ≤
      (mcRun (fun _ _ => some 2) (fun _ => 0) (fun _ => 0) envZero 1).ucl_95 :=
  mcRun_failure_probability_and_ucl (fun _ _ => some 2) (fun _ => 0) (fun _ => 0) envZero 1
    (by norm_num)

/-- C8: the rule engine's verdict is FAIL at confidence 0.9 exactly when
a critical observation exists, else CONDITIONAL_PASS at confidence 0.7
exactly when a warning exists — with conditions the warnings' non-empty
recommendations — else PASS at confidence 0.8. -/
theorem makeVerdict_characterization :
    ∀ (failures : List Rule.FailureObservation),
      (Rule.makeVerdict failures).failures = failures ∧
      ((Rule.makeVerdict failures).verdict = Rule.RVerdict.FAIL ↔
        ∃ f ∈ failures, f.severity = Rule.Severity.critical) ∧
      ((Rule.makeVerdict failures).verdict = Rule.RVerdict.CONDITIONAL_PASS ↔
        ¬(∃ f ∈ failures, f.severity = Rule.Severity.critical) ∧
          ∃ f ∈ failures, f.severity = Rule.Severity.warning) ∧
      ((Rule.makeVerdict failures).verdict = Rule.RVerdict.PASS ↔
        ¬(∃ f ∈ failures, f.severity = Rule.Severity.critical) ∧
          ¬(∃ f ∈ failures, f.severity = Rule.Severity.warning)) ∧
      ((Rule.makeVerdict failures).verdict = Rule.RVerdict.FAIL →
        (Rule.makeVerdict failures).confidence = 9/10 ∧
        (Rule.makeVerdict failures).conditions = []) ∧
      ((Rule.makeVerdict failures).verdict = Rule.RVerdict.CONDITIONAL_PASS →
        (Rule.makeVerdict failures).confidence = 7/10 ∧
        (Rule.makeVerdict failures).conditions =
          ((failures.filter (fun f => decide (f.severity = Rule.Severity.warning))).filter
            (fun w => decide (w.recommendation ≠ ""))).map
              (fun w => w.recommendation)) ∧
      ((Rule.makeVerdict failures).verdict = Rule.RVerdict.PASS →
        (Rule.makeVerdict failures).confidence = 8/10 ∧
        (Rule.makeVerdict failures).conditions = []) := by
  intro failures
  have hcrit : failures.filter (fun f => decide (f.severity = Rule.Severity.critical)) ≠ [] ↔
      ∃ f ∈ failures, f.severity = Rule.Severity.critical := by
    rw [ne_eq, List.filter_eq_nil_iff]
    push_neg
    simp
  have hwarn : failures.filter (fun f => decide (f.severity = Rule.Severity.warning)) ≠ [] ↔
      ∃ f ∈ failures, f.severity = Rule.Severity.warning := by
    rw [ne_eq, List.filter_eq_nil_iff]
    push_neg
    simp
  unfold Rule.makeVerdict
  dsimp only
  split_ifs with h1 h2
  · rw [hcrit] at h1
    refine ⟨rfl, by simp [h1], by simp [h1], by simp [h1], fun _ => ⟨rfl, rfl⟩,
      by simp, by simp⟩
  · rw [hcrit] at h1
    rw [hwarn] at h2
    refine ⟨rfl, by simp [h1], by simp [h1, h2], by simp [h2], by simp,
      fun _ => ⟨rfl, rfl⟩, by simp⟩
  · rw [hcrit] at h1
    rw [hwarn] at h2
    refine ⟨rfl, by simp [h1], by simp [h1, h2], by simp [h1, h2], by simp,
      by simp, fun _ => ⟨rfl, rfl⟩⟩

/-- C9: `Calibrator.calibrate` updates exactly the parameters present in
both maps with a non-zero current value, multiplicatively by
`1 + learning_rate * (sensor - current)/|current|`, leaves the rest
unchanged, and reports status `"calibrated"` exactly when at least one
parameter was corrected, `"insufficient_data"` (with an empty
corrections map) otherwise.  The default learning rate is `0.1`. -/
theorem calibrate_characterization :
    ∀ (lr : ℚ) (current sensor : List (String × ℚ)),
      (calibrate lr current sensor).new_physics_params =
        current.map (fun p =>
          match dictFind sensor p.1 with
          | some sv => if p.2 ≠ 0 then (p.1, p.2 * (1 + lr * (sv - p.2) / |p.2|)) else p
          | none => p) ∧
      ((calibrate lr current sensor).corrections_applied ≠ [] ↔
        ∃ p ∈ current, ∃ sv, dictFind sensor p.1 = some sv ∧ p.2 ≠ 0) ∧
      ((calibrate lr current sensor).status = "calibrated" ↔
        (calibrate lr current sensor).corrections_applied ≠ []) ∧
      ((calibrate lr current sensor).status = "insufficient_data" ↔
        (calibrate lr current sensor).corrections_applied = []) ∧
      defaultLearningRate = 1/10 := by
  intro lr current sensor
  have hfun : ∀ p : String × ℚ,
      (match calibrateStep lr sensor p with
        | some q => (p.1, q.2)
        | none => p) =
      (match dictFind sensor p.1 with
        | some sv => if p.2 ≠ 0 then (p.1, p.2 * (1 + lr * (sv - p.2) / |p.2|)) else p
        | none => p) := by
    intro p
    unfold calibrateStep
    cases hd : dictFind sensor p.1 with
    | none => rfl
    | some sv =>
        dsimp only
        by_cases hz : p.2 ≠ 0
        · rw [if_pos hz, if_pos hz]
          exact congrArg (fun x => (p.1, x))
            (by ring :
              p.2 * (1 + lr * ((sv - p.2) / |p.2|)) = p.2 * (1 + lr * (sv - p.2) / |p.2|))
        · rw [if_neg hz, if_neg hz]
  have hstep : ∀ p : String × ℚ,
      (calibrateStep lr sensor p ≠ none ↔
        ∃ sv, dictFind sensor p.1 = some sv ∧ p.2 ≠ 0) := by
    intro p
    unfold calibrateStep
    cases hd : dictFind sensor p.1 with
    | none => simp
    | some sv => by_cases hz : p.2 ≠ 0 <;> simp [hz]
  have hcor : (calibrate lr current sensor).corrections_applied =
      current.filterMap (fun p => (calibrateStep lr sensor p).map (fun q => (p.1, q.1))) := rfl
  have hcorne : (calibrate lr current sensor).corrections_applied ≠ [] ↔
      ∃ p ∈ current, ∃ sv, dictFind sensor p.1 = some sv ∧ p.2 ≠ 0 := by
    rw [hcor, ne_eq, List.filterMap_eq_nil_iff]
    push_neg
    constructor
    · rintro ⟨p, hp, hne⟩
      refine ⟨p, hp, (hstep p).mp ?_⟩
      intro h0
      rw [h0] at hne
      exact hne rfl
    · rintro ⟨p, hp, hex⟩
      refine ⟨p, hp, ?_⟩
      have := (hstep p).mpr hex
      cases h0 : calibrateStep lr sensor p with
      | none => exact absurd h0 this
      | some q => simp
  have hstat : (calibrate lr current sensor).status =
      if 0 < (calibrate lr current sensor).corrections_applied.length
      then "calibrated" else "insufficient_data" := rfl
  refine ⟨?_, hcorne, ?_, ?_, rfl⟩
  · have h1 : (calibrate lr current sensor).new_physics_params =
        current.map (fun p =>
          match calibrateStep lr sensor p with
          | some q => (p.1, q.2)
          | none => p) := rfl
    rw [h1]
    exact List.map_congr_left (fun p _ => hfun p)
  · rw [hstat]
    split_ifs with hlen
    · simp only [true_iff]
      intro h0
      rw [h0] at hlen
      simp at hlen
    · constructor
      · intro hc
        exact absurd hc (by simp)
      · intro hne
        have : (calibrate lr current sensor).corrections_applied = [] := by
          cases h0 : (calibrate lr current sensor).corrections_applied with
          | nil => rfl
          | cons a t =>
              rw [h0] at hlen
              simp at hlen
        exact absurd this hne
  · rw [hstat]
    split_ifs with hlen
    · constructor
      · intro hc
        exact absurd hc (by simp)
      · intro h0
        rw [h0] at hlen
        simp at hlen
    · simp only [true_iff]
      cases h0 : (calibrate lr current sensor).corrections_applied with
      | nil => rfl
      | cons a t =>
          rw [h0] at hlen
          simp at hlen

/-- A concrete observation used to instantiate the rule-engine theorem. -/
def obsWarn : Rule.FailureObservation :=
  { rule_id := "SUP-002", category := "supply", severity := Rule.Severity.warning,
    description := "short runtime", evidence := "tank", recommendation := "add tank" }

/-- Witness for C8: a single warning observation with a recommendation
lands in the CONDITIONAL_PASS branch. -/
theorem makeVerdict_characterization_witness :
    (Rule.makeVerdict [obsWarn]).confidence = 7/10 ∧
    (Rule.makeVerdict [obsWarn]).conditions =
      (([obsWarn].filter (fun f => decide (f.severity = Rule.Severity.warning))).filter
        (fun w => decide (w.recommendation ≠ ""))).map (fun w => w.recommendation) :=
  (makeVerdict_characterization [obsWarn]).2.2.2.2.2.1 (by decide)

/-- C4: with the seeded noise stream fixed, a Monte Carlo run over an
engine that does not consult the ambient (unseeded) randomness returns
identical mean, standard deviation and failure probability on any two
invocations; only an engine reading the ambient stream — the
spray-trajectory engine's per-call droplet-diameter sampling — escapes
this. -/
theorem mcRun_deterministic_under_seed :
    ∀ (engine : SampleSF) (om om2 g : ℕ → ℚ) (base : EnvironmentCondition)
      (n : ℕ),
      (∀ o o2 e, engine o e = engine o2 e) →
      (mcRun engine om g base n).mean_sf = (mcRun engine om2 g base n).mean_sf ∧
      (mcRun engine om g base n).std_sf = (mcRun engine om2 g base n).std_sf ∧
      (mcRun engine om g base n).failure_probability =
        (mcRun engine om2 g base n).failure_probability := by
  intro engine om om2 g base n hdet
  have hsf : (mcRun engine om g base n).safety_factors =
      (mcRun engine om2 g base n).safety_factors := by
    show (sampleEnvironment g base n).map (fun e => (engine om e).getD 0) =
      (sampleEnvironment g base n).map (fun e => (engine om2 e).getD 0)
    apply List.map_congr_left
    intro e _
    rw [hdet om om2 e]
  refine ⟨?_, ?_, ?_⟩
  · show listMean (mcRun engine om g base n).safety_factors =
      listMean (mcRun engine om2 g base n).safety_factors
    rw [hsf]
  · show ratSqrt (listVar (mcRun engine om g base n).safety_factors) =
      ratSqrt (listVar (mcRun engine om2 g base n).safety_factors)
    rw [hsf]
  · show (((mcRun engine om g base n).safety_factors.countP
        (fun x => decide (x < 1)) : ℕ) : ℚ) / n =
      (((mcRun engine om2 g base n).safety_factors.countP
        (fun x => decide (x < 1)) : ℕ) : ℚ) / n
    rw [hsf]

/-- Witness for C4: a constant engine under two different ambient
streams. -/
theorem mcRun_deterministic_under_seed_witness :
    (mcRun (fun _ _ => some 1) (fun _ => 0) (fun _ => 0) envZero 1).mean_sf =
      (mcRun (fun _ _ => some 1) (fun _ => 1) (fun _ => 0) envZero 1).mean_sf ∧
    (mcRun (fun _ _ => some 1) (fun _ => 0) (fun _ => 0) envZero 1).std_sf =
      (mcRun (fun _ _ => some 1) (fun _ => 1) (fun _ => 0) envZero 1).std_sf ∧
    (mcRun (fun _ _ => some 1) (fun _ => 0) (fun _ => 0) envZero 1).failure_probability =
      (mcRun (fun _ _ => some 1) (fun _ => 1) (fun _ => 0) envZero 1).failure_probability :=
  mcRun_deterministic_under_seed (fun _ _ => some 1) (fun _ => 0) (fun _ => 1)
    (fun _ => 0) envZero 1 (fun _ _ _ => rfl)

/-- `SprayCoverageEngine.compute_safety_factor`:
`SF = grid_coverage / KDS_MIN_BRINE_COVERAGE` (the `required <= 0`
guard is dead, the constant being `0.85 > 0`). -/
def gridComputeSafetyFactor (grid_coverage : ℚ) : ℚ :=
  grid_coverage / KDS_MIN_BRINE_COVERAGE

/-- Dividing a coverage value that is at most `1` by the required
coverage `0.85` keeps it at most `20/17`. -/
theorem sf_le_of_coverage_le_one (r : ℚ) (h : r ≤ 1) :
    r / KDS_MIN_BRINE_COVERAGE ≤ 20/17 := by
  unfold KDS_MIN_BRINE_COVERAGE
  rw [div_le_iff₀ (by norm_num : (0:ℚ) < 17/20)]
  linarith

/-- The mean of a nonempty list is at most any bound on its entries. -/
theorem listMean_le_of_forall_le (l : List ℚ) (B : ℚ) (hne : l ≠ [])
    (h : ∀ x ∈ l, x ≤ B) : listMean l ≤ B := by
  unfold listMean
  have hlen : 0 < (l.length : ℚ) := by
    have := List.length_pos.mpr hne
    exact_mod_cast this
  rw [div_le_iff₀ hlen]
  have hsum : l.sum ≤ l.length • B := List.sum_le_card_nsmul l B h
  rw [nsmul_eq_mul] at hsum
  linarith

/-- C5: the spray-trajectory and grid-coverage safety factors are at most
`1/0.85 = 20/17`, because each engine's coverage value lies in `[0, 1]`
and is divided by the required coverage `0.85`; hence with the default
target `1.5` the judge can never return PASS over such an engine: every
verdict is FAIL or WARNING. -/
theorem spray_engines_never_pass :
    (∀ (pts : List (ℚ × ℚ)) (road : ℚ) (corr : Option ℚ),
      nsComputeSafetyFactor (nsCoverageRatio pts road corr) ≤ 20/17) ∧
    (∀ (res L W : ℚ) (pts : List (ℚ × ℚ)),
      gridComputeSafetyFactor (gridCoverage res L W pts) ≤ 20/17) ∧
    (∀ (engine : SampleSF) (om g : ℕ → ℚ) (base : EnvironmentCondition)
      (n : ℕ),
      0 < n →
      (∀ e s, engine om e = some s → s ≤ 20/17) →
      judgeDecide engine om g base n PASS_SAFETY_FACTOR_TARGET ≠ Verdict.PASS) := by
  refine ⟨?_, ?_, ?_⟩
  · intro pts road corr
    exact sf_le_of_coverage_le_one _ (nsCoverageRatio_mem pts road corr).2
  · intro res L W pts
    exact sf_le_of_coverage_le_one _ (gridCoverage_mem res L W pts).2
  · intro engine om g base n hn hbound
    have hsfs : ∀ x ∈ (mcRun engine om g base n).safety_factors, x ≤ 20/17 := by
      intro x hx
      have hx2 : x ∈ (sampleEnvironment g base n).map
          (fun e => (engine om e).getD 0) := hx
      obtain ⟨e, -, rfl⟩ := List.mem_map.mp hx2
      cases h : engine om e with
      | none => simp [h]; norm_num
      | some s =>
          simp only [h, Option.getD_some]
          exact hbound e s h
    have hne : (mcRun engine om g base n).safety_factors ≠ [] := by
      intro h0
      have := mcRun_sf_length engine om g base n
      rw [h0] at this
      simp at this
      omega
    have hmean : (mcRun engine om g base n).mean_sf ≤ 20/17 := by
      show listMean (mcRun engine om g base n).safety_factors ≤ 20/17
      exact listMean_le_of_forall_le _ _ hne hsfs
    show classify (mcRun engine om g base n).failure_probability
      (mcRun engine om g base n).mean_sf
      (mcRun engine om g base n).ucl_95 PASS_SAFETY_FACTOR_TARGET ≠ Verdict.PASS
    unfold classify PASS_SAFETY_FACTOR_TARGET
    split_ifs with h1 h2
    · simp
    · simp
    · exfalso
      push_neg at h2
      linarith [h2.1]

/-- Witness for C5: a constant sub-target engine over one sample. -/
theorem spray_engines_never_pass_witness :
    judgeDecide (fun _ _ => some 1) (fun _ => 0) (fun _ => 0) envZero 1
      PASS_SAFETY_FACTOR_TARGET ≠ Verdict.PASS :=
  spray_engines_never_pass.2.2 (fun _ _ => some 1) (fun _ => 0) (fun _ => 0)
    envZero 1 (by norm_num)
    (fun e s h => by
      injection h with h2
      rw [← h2]
      norm_num)

end RC
